import Mathlib

/-!
Verification of the PitStop backend (src/backend/main.py) against its
specification.  The FastAPI service persists vehicles and their child
records (maintenance, insurance, registration) as flat string hashes in a
redis key-value store.  This file gives a shallow embedding of the data
access layer: the store is an association list from keys to hashes, every
endpoint handler becomes a pure function from its inputs (plus the
connector availability flag, the fresh uuid and the current timestamp,
which are passed explicitly) to an HTTP-level result and the resulting
store.

Modelling conventions, stated once:
* `get_redis()` succeeding or failing is the boolean `avail` parameter.
* `uuid.uuid4()` and `datetime.now().isoformat()` are the explicit
  `newId` / `now` string parameters.
* redis `KEYS pat*` returns keys in unspecified order; the model uses the
  store's list order.
* JSON payload values reaching the loosely typed `Dict[str, Any]` bodies
  are modelled by `PyVal` (null, string, integer); float payload values
  and containers are outside the claims and are not modelled.
* Python `float` values are modelled by their accepted literal
  (`PyFloat`); literal normalisation (`"1.50"` to `"1.5"`) is not
  modelled, which is adequate because every claim compares records built
  from identical numeric inputs.  `int()` / `float()` string parsing is
  modelled for optionally signed decimal literals; surrounding
  whitespace, underscores and exponents are not modelled (no stored or
  claimed value contains them).
-/

/-- A redis hash: field name to string value, first binding wins. -/
abbrev Hash := List (String × String)

/-- The key-value store: key to hash, first binding wins (keys are kept
unique by the store operations). -/
abbrev Store := List (String × Hash)

/-- First value bound to field `k` in a hash (redis `HGET`). -/
def Hash.find : Hash → String → Option String
  | [], _ => none
  | (k', v) :: rest, k => if k' = k then some v else Hash.find rest k

/-- redis `HSET key mapping`: fields of `new` override fields of `old`,
fields of `old` absent from `new` survive. -/
def Hash.merge (old new : Hash) : Hash :=
  old.filter (fun p => (Hash.find new p.fst).isNone) ++ new

/-- Hash stored at `k`, if the key exists at all. -/
def Store.lookup : Store → String → Option Hash
  | [], _ => none
  | (k', h) :: rest, k => if k' = k then some h else Store.lookup rest k

/-- redis `HGETALL`: the stored hash, or the empty mapping for a missing
key. -/
def Store.hgetall (s : Store) (k : String) : Hash :=
  (Store.lookup s k).getD []

/-- redis `EXISTS` for the hash keys this service uses: in redis a hash
key exists exactly when its mapping is non-empty. -/
def Store.existsKey (s : Store) (k : String) : Bool :=
  !(Store.hgetall s k).isEmpty

/-- redis `HSET`: merge the mapping into the hash at `k`, creating the
key if absent. -/
def Store.hset : Store → String → Hash → Store
  | [], k, m => [(k, m)]
  | (k', h) :: rest, k, m =>
      if k' = k then (k', Hash.merge h m) :: rest
      else (k', h) :: Store.hset rest k m

/-- redis `DEL k`. -/
def Store.del (s : Store) (k : String) : Store :=
  s.filter (fun p => !(p.fst = k : Bool))

/-- All keys of the store. -/
def Store.keys (s : Store) : List String :=
  s.map Prod.fst

/-- Python's code-point comparison of strings, as used by `sorted` and by
redis key handling: lexicographic on the code points, a strict prefix is
smaller. -/
def charsLt : List Char → List Char → Bool
  | [], [] => false
  | [], _ :: _ => true
  | _ :: _, [] => false
  | c :: cs, d :: ds =>
      if c.toNat < d.toNat then true
      else if d.toNat < c.toNat then false
      else charsLt cs ds

/-- Python `a < b` on strings. -/
def strLtB (a b : String) : Bool :=
  charsLt a.data b.data

/-- Char-list prefix test; models the glob `p*` of redis `KEYS` (all
patterns this service issues are a literal followed by `*`). -/
def isPre : List Char → List Char → Bool
  | [], _ => true
  | _ :: _, [] => false
  | c :: cs, d :: ds => (c = d : Bool) && isPre cs ds

/-- `startsWith` on strings (redis `KEYS p*` membership). -/
def keyStarts (p s : String) : Bool :=
  isPre p.data s.data

/-- Python `s.endswith(suf)`. -/
def keyEnds (suf s : String) : Bool :=
  isPre suf.data.reverse s.data.reverse

/-- `r.keys(p + "*")`: every stored key beginning with `p`, in store
order. -/
def Store.keysMatching (s : Store) (p : String) : List String :=
  (Store.keys s).filter (fun k => keyStarts p k)

/-- A loosely typed JSON value as it reaches the `Dict[str, Any]` request
bodies: null, a string, or an integer. -/
inductive PyVal where
  | vnone : PyVal
  | vstr : String → PyVal
  | vint : Int → PyVal
deriving DecidableEq

/-- A raw request body (`Dict[str, Any]`), keys unique. -/
abbrev RawData := List (String × PyVal)

/-- Python `data.get(k)` (`None` for a missing key is the `none` case). -/
def RawData.get : RawData → String → Option PyVal
  | [], _ => none
  | (k', v) :: rest, k => if k' = k then some v else RawData.get rest k

/-- Python truthiness of the modelled values. -/
def pyTruthy : PyVal → Bool
  | .vnone => false
  | .vstr s => !s.isEmpty
  | .vint n => !(n = 0 : Bool)

/-- A Python `float`, identified by its accepted literal. -/
structure PyFloat where
  lit : String
deriving DecidableEq

/-- Decimal digit to its character. -/
def digitChar (d : Nat) : Char :=
  Nat.digitChar d

/-- Character back to a decimal digit value, if it is one. -/
def charDigit? (c : Char) : Option Nat :=
  if c.isDigit then some (c.toNat - 48) else none

/-- Little-endian decimal digits of `n`, by fuelled division (`fuel` at
least `n` suffices). -/
def natToDigitsRev (fuel n : Nat) : List Nat :=
  match fuel with
  | 0 => []
  | f + 1 => if n = 0 then [] else n % 10 :: natToDigitsRev f (n / 10)

/-- Python `str(n)` for a natural number. -/
def pyNatStr (n : Nat) : String :=
  if n = 0 then "0" else ⟨((natToDigitsRev (n + 1) n).reverse.map digitChar)⟩

/-- Python `str(i)` for an integer. -/
def pyIntStr (i : Int) : String :=
  if i < 0 then "-" ++ pyNatStr i.natAbs else pyNatStr i.natAbs

/-- Digit values of a character run; any non-digit fails. -/
def charsDigits? : List Char → Option (List Nat)
  | [] => some []
  | c :: cs =>
      match charDigit? c with
      | none => none
      | some d => (charsDigits? cs).map (fun ds => d :: ds)

/-- Parse an unsigned run of decimal digit characters (Python `int()`
after sign handling); empty input fails. -/
def parseNatChars (l : List Char) : Option Nat :=
  match charsDigits? l with
  | none => none
  | some ds => if ds.isEmpty then none else some (Nat.ofDigits 10 ds.reverse)

/-- Python `int(s)` on a string: optional sign then decimal digits. -/
def parseIntStr (s : String) : Option Int :=
  match s.data with
  | [] => none
  | c :: cs =>
      if c = '-' then (parseNatChars cs).map (fun m => -(m : Int))
      else if c = '+' then (parseNatChars cs).map (fun m => (m : Int))
      else (parseNatChars (c :: cs)).map (fun m => (m : Int))

/-- The digits/dot part of a float literal: `digits`, `digits.digits?`,
or `.digits`. -/
def isFloatBody (l : List Char) : Bool :=
  let intPart := l.takeWhile (fun c => c.isDigit)
  let rest := l.dropWhile (fun c => c.isDigit)
  match rest with
  | [] => !intPart.isEmpty
  | '.' :: frac => (!intPart.isEmpty || !frac.isEmpty) && frac.all (fun c => c.isDigit)
  | _ => false

/-- Python `float(s)` acceptance for a plain decimal literal with
optional sign. -/
def isFloatLit (s : String) : Bool :=
  match s.data with
  | '+' :: l => isFloatBody l
  | '-' :: l => isFloatBody l
  | l => isFloatBody l

/-- Python `float(s)` on a string. -/
def parseFloatStr (s : String) : Option PyFloat :=
  if isFloatLit s then some ⟨s⟩ else none

/-- Python `int(v)` on a raw payload value (`int(None)` raises). -/
def parsePyInt : PyVal → Option Int
  | .vint n => some n
  | .vstr s => parseIntStr s
  | .vnone => none

/-- Python `float(v)` on a raw payload value (`float(int)` widens,
`float(None)` raises). -/
def parsePyFloat : PyVal → Option PyFloat
  | .vint n => some ⟨pyIntStr n ++ ".0"⟩
  | .vstr s => parseFloatStr s
  | .vnone => none

/-- pydantic v1 coercion of a payload value into a required `str` field:
`None` is rejected (a `ValidationError`), strings pass, integers are
coerced to their decimal form. -/
def cleanStr : PyVal → Option String
  | .vnone => none
  | .vstr s => some s
  | .vint n => some (pyIntStr n)

/-- Python `str(v)` (used only on values already known non-`None`). -/
def pyValStr : PyVal → String
  | .vnone => "None"
  | .vstr s => s
  | .vint n => pyIntStr n

/-- An HTTP-level failure (`HTTPException(status_code, detail)`).  For
500 responses the Python detail carries `str(e)` of the underlying
exception; the model uses the fixed text "internal error" since no claim
inspects it. -/
structure ApiError where
  status : Nat
  detail : String
deriving DecidableEq

/-- Result of a state-changing endpoint: the HTTP outcome together with
the store after the call (unchanged on every error path of the source,
which raises before its single write). -/
abbrev ApiResult (α : Type) := Except ApiError α × Store

/-- The typed `Vehicle` request body after FastAPI's pydantic parsing.
`id`, `created_at` and `updated_at` are optional in the model but are
overwritten by both handlers before any use, so they are omitted here. -/
structure VehicleIn where
  make : String
  model : String
  year : Int
  vin : String
  license_plate : String
  color : String
  mileage : Int
deriving DecidableEq

/-- A `Vehicle` domain record as held by the handlers. -/
structure VehicleRec where
  id : Option String
  make : String
  model : String
  year : Int
  vin : String
  license_plate : String
  color : String
  mileage : Int
  created_at : Option String
  updated_at : Option String
deriving DecidableEq

/-- `vehicle.dict()` followed by the stringify loop of
`create_vehicle` / `update_vehicle`: non-`None` values become `str(v)`,
`None` values stay `None` in the mapping (the loop has no `else`
branch). -/
def vehicleHsetMapping (v : VehicleRec) : List (String × Option String) :=
  [("id", v.id), ("make", some v.make), ("model", some v.model),
   ("year", some (pyIntStr v.year)), ("vin", some v.vin),
   ("license_plate", some v.license_plate), ("color", some v.color),
   ("mileage", some (pyIntStr v.mileage)),
   ("created_at", v.created_at), ("updated_at", v.updated_at)]

/-- redis-py `hset(..., mapping=m)`: a `None` value raises `DataError`
(nothing is written); otherwise all pairs are sent. -/
def hsetEncode : List (String × Option String) → Option Hash
  | [] => some []
  | (k, some v) :: rest => (hsetEncode rest).map (fun h => (k, v) :: h)
  | (_, none) :: _ => none

/-- Decode a stored vehicle hash: the `int(...)` conversions of the read
handlers followed by `Vehicle(**record_data)` (pydantic: required fields
must be present, unknown fields are ignored, a failed conversion raises).
`none` stands for any raised exception along the way. -/
def decodeVehicle (h : Hash) : Option VehicleRec :=
  match (Hash.find h "make"), (Hash.find h "model"),
        ((Hash.find h "year").bind parseIntStr), (Hash.find h "vin"),
        (Hash.find h "license_plate"), (Hash.find h "color"),
        ((Hash.find h "mileage").bind parseIntStr) with
  | some mk, some md, some yr, some vn, some lp, some co, some mi =>
      some ⟨Hash.find h "id", mk, md, yr, vn, lp, co, mi,
            Hash.find h "created_at", Hash.find h "updated_at"⟩
  | _, _, _, _, _, _, _ => none

/-- Decode every non-empty hash under the given keys; an exception while
decoding any of them aborts the whole read (`none`). -/
def decodeAll (dec : Hash → Option α) (s : Store) : List String → Option (List α)
  | [] => some []
  | k :: ks =>
      let h := Store.hgetall s k
      if h.isEmpty then decodeAll dec s ks
      else
        match dec h with
        | none => none
        | some v => (decodeAll dec s ks).map (fun vs => v :: vs)

/-- Insert into a list sorted descending by `key`, Python string
comparison. -/
def insertDesc (key : α → String) (x : α) : List α → List α
  | [] => [x]
  | y :: ys => if strLtB (key y) (key x) then x :: y :: ys else y :: insertDesc key x ys

/-- Python `sorted(l, key=key, reverse=True)`. -/
def sortDesc (key : α → String) (l : List α) : List α :=
  l.foldr (insertDesc key) []

/-- `GET /api/vehicles`. -/
def get_vehicles (avail : Bool) (s : Store) : List VehicleRec :=
  if !avail then []
  else (decodeAll decodeVehicle s (Store.keysMatching s "vehicle:")).getD []

/-- `GET /api/vehicles/{vehicle_id}`. -/
def get_vehicle (avail : Bool) (vehicle_id : String) (s : Store) : Except ApiError VehicleRec :=
  if !avail then .error ⟨503, "Database unavailable"⟩
  else
    let h := Store.hgetall s ("vehicle:" ++ vehicle_id)
    if h.isEmpty then .error ⟨404, "Vehicle not found"⟩
    else
      match decodeVehicle h with
      | some v => .ok v
      | none => .error ⟨500, "internal error"⟩

/-- `POST /api/vehicles`. -/
def create_vehicle (avail : Bool) (newId now : String) (v : VehicleIn) (s : Store) :
    ApiResult VehicleRec :=
  if !avail then (.error ⟨503, "Database unavailable"⟩, s)
  else
    let vr : VehicleRec :=
      ⟨some newId, v.make, v.model, v.year, v.vin, v.license_plate, v.color,
       v.mileage, some now, some now⟩
    match hsetEncode (vehicleHsetMapping vr) with
    | some h => (.ok vr, Store.hset s ("vehicle:" ++ newId) h)
    | none => (.error ⟨500, "internal error"⟩, s)

/-- `PUT /api/vehicles/{vehicle_id}`. -/
def update_vehicle (avail : Bool) (now : String) (vehicle_id : String) (v : VehicleIn)
    (s : Store) : ApiResult VehicleRec :=
  if !avail then (.error ⟨503, "Database unavailable"⟩, s)
  else
    let existing := Store.hgetall s ("vehicle:" ++ vehicle_id)
    if existing.isEmpty then (.error ⟨404, "Vehicle not found"⟩, s)
    else
      let vr : VehicleRec :=
        ⟨some vehicle_id, v.make, v.model, v.year, v.vin, v.license_plate, v.color,
         v.mileage, Hash.find existing "created_at", some now⟩
      match hsetEncode (vehicleHsetMapping vr) with
      | some h => (.ok vr, Store.hset s ("vehicle:" ++ vehicle_id) h)
      | none => (.error ⟨500, "internal error"⟩, s)

/-- `DELETE /api/vehicles/{vehicle_id}`: the three child key scans, in
source order. -/
def cascadeChildKeys (s : Store) (vehicle_id : String) : List String :=
  Store.keysMatching s ("maintenance:" ++ vehicle_id ++ ":")
    ++ Store.keysMatching s ("insurance:" ++ vehicle_id ++ ":")
    ++ Store.keysMatching s ("registration:" ++ vehicle_id ++ ":")

/-- `DELETE /api/vehicles/{vehicle_id}`: children first, then the
vehicle key. -/
def delete_vehicle (avail : Bool) (vehicle_id : String) (s : Store) : ApiResult String :=
  if !avail then (.error ⟨503, "Database unavailable"⟩, s)
  else if !(Store.existsKey s ("vehicle:" ++ vehicle_id)) then
    (.error ⟨404, "Vehicle not found"⟩, s)
  else
    let s1 := (cascadeChildKeys s vehicle_id).foldl Store.del s
    (.ok "Vehicle deleted successfully", Store.del s1 ("vehicle:" ++ vehicle_id))

/-- A `MaintenanceRecord` domain record. -/
structure MaintenanceRec where
  id : Option String
  vehicle_id : Option String
  type : String
  description : String
  date : String
  mileage : Int
  cost : PyFloat
  service_provider : String
  notes : Option String
  next_due_date : Option String
  next_due_mileage : Option Int
  created_at : Option String
  updated_at : Option String
deriving DecidableEq

/-- `record.dict()` followed by the child-record stringify loop:
non-`None` values become `str(v)`, `None` values become the empty
string. -/
def maintRecordDict (m : MaintenanceRec) : Hash :=
  [("id", m.id.getD ""), ("vehicle_id", m.vehicle_id.getD ""),
   ("type", m.type), ("description", m.description), ("date", m.date),
   ("mileage", pyIntStr m.mileage), ("cost", m.cost.lit),
   ("service_provider", m.service_provider), ("notes", m.notes.getD ""),
   ("next_due_date", m.next_due_date.getD ""),
   ("next_due_mileage", (m.next_due_mileage.map pyIntStr).getD ""),
   ("created_at", m.created_at.getD ""), ("updated_at", m.updated_at.getD "")]

/-- Decode a stored maintenance hash: the guarded `int` / `float`
conversions of the read handlers followed by
`MaintenanceRecord(**record_data)`.  Note the read-side asymmetry the
source has: a stored `next_due_mileage` of `""` skips the guarded
conversion but then fails pydantic's `Optional[int]` coercion, while a
missing key stays `None`. -/
def decodeMaint (h : Hash) : Option MaintenanceRec :=
  match (Hash.find h "type"), (Hash.find h "description"), (Hash.find h "date"),
        ((Hash.find h "mileage").bind parseIntStr),
        ((Hash.find h "cost").bind parseFloatStr),
        (Hash.find h "service_provider"),
        (match Hash.find h "next_due_mileage" with
         | none => some none
         | some str => (parseIntStr str).map some) with
  | some ty, some de, some da, some mi, some co, some sp, some ndm =>
      some ⟨Hash.find h "id", Hash.find h "vehicle_id", ty, de, da, mi, co, sp,
            Hash.find h "notes", Hash.find h "next_due_date", ndm,
            Hash.find h "created_at", Hash.find h "updated_at"⟩
  | _, _, _, _, _, _, _ => none

/-- `GET /api/vehicles/{vehicle_id}/maintenance`. -/
def get_maintenance_records (avail : Bool) (vehicle_id : String) (s : Store) :
    List MaintenanceRec :=
  if !avail then []
  else
    match decodeAll decodeMaint s
        (Store.keysMatching s ("maintenance:" ++ vehicle_id ++ ":")) with
    | some recs => sortDesc (fun x => x.date) recs
    | none => []

/-- The optional-string normalisation of the maintenance create/update
handlers: `data.get(k, '') if data.get(k) else None`, then pydantic
`Optional[str]` coercion. -/
def optionalStrField (data : RawData) (k : String) : Option String :=
  (RawData.get data k).bind (fun v => if pyTruthy v then some (pyValStr v) else none)

/-- The `next_due_mileage` normalisation: parses only if truthy, an
unparseable value silently becomes `None`. -/
def optionalIntField (data : RawData) (k : String) : Option Int :=
  (RawData.get data k).bind (fun v => if pyTruthy v then parsePyInt v else none)

/-- `POST /api/vehicles/{vehicle_id}/maintenance`. -/
def create_maintenance_record (avail : Bool) (newId now : String) (vehicle_id : String)
    (data : RawData) (s : Store) : ApiResult MaintenanceRec :=
  if !avail then (.error ⟨503, "Database unavailable"⟩, s)
  else if !(Store.existsKey s ("vehicle:" ++ vehicle_id)) then
    (.error ⟨404, "Vehicle not found"⟩, s)
  else
    match parsePyInt ((RawData.get data "mileage").getD (.vint 0)) with
    | none => (.error ⟨422, "Invalid mileage value"⟩, s)
    | some mileage =>
      match (match RawData.get data "cost" with
             | some v => parsePyFloat v
             | none => some ⟨"0.0"⟩) with
      | none => (.error ⟨422, "Invalid cost value"⟩, s)
      | some cost =>
        match cleanStr ((RawData.get data "type").getD (.vstr "")),
              cleanStr ((RawData.get data "description").getD (.vstr "")),
              cleanStr ((RawData.get data "date").getD (.vstr "")),
              cleanStr ((RawData.get data "service_provider").getD (.vstr "")) with
        | some ty, some de, some da, some sp =>
            let m : MaintenanceRec :=
              ⟨some newId, some vehicle_id, ty, de, da, mileage, cost, sp,
               optionalStrField data "notes", optionalStrField data "next_due_date",
               optionalIntField data "next_due_mileage", some now, some now⟩
            (.ok m,
             Store.hset s ("maintenance:" ++ vehicle_id ++ ":" ++ newId)
               (maintRecordDict m))
        | _, _, _, _ => (.error ⟨422, "Validation error"⟩, s)

/-- The scan used by the by-id maintenance endpoints: first key under
`maintenance:*` ending in `:{maintenance_id}`. -/
def findMaintKey (s : Store) (maintenance_id : String) : Option String :=
  (Store.keysMatching s "maintenance:").find?
    (fun k => keyEnds (":" ++ maintenance_id) k)

/-- `PUT /api/maintenance/{maintenance_id}`.  Required fields fall back
to the stored values when omitted; the three optional fields are rebuilt
from the request alone. -/
def update_maintenance_record (avail : Bool) (now : String) (maintenance_id : String)
    (data : RawData) (s : Store) : ApiResult MaintenanceRec :=
  if !avail then (.error ⟨503, "Database unavailable"⟩, s)
  else
    match findMaintKey s maintenance_id with
    | none => (.error ⟨404, "Maintenance record not found"⟩, s)
    | some key =>
      let existing := Store.hgetall s key
      if existing.isEmpty then (.error ⟨404, "Maintenance record not found"⟩, s)
      else
        match parsePyInt ((RawData.get data "mileage").getD
                  (match Hash.find existing "mileage" with
                   | some str => .vstr str
                   | none => .vint 0)) with
        | none => (.error ⟨422, "Invalid mileage value"⟩, s)
        | some mileage =>
          match (match RawData.get data "cost" with
                 | some v => parsePyFloat v
                 | none =>
                     match Hash.find existing "cost" with
                     | some str => parseFloatStr str
                     | none => some ⟨"0.0"⟩) with
          | none => (.error ⟨422, "Invalid cost value"⟩, s)
          | some cost =>
            match cleanStr ((RawData.get data "type").getD
                      (.vstr ((Hash.find existing "type").getD ""))),
                  cleanStr ((RawData.get data "description").getD
                      (.vstr ((Hash.find existing "description").getD ""))),
                  cleanStr ((RawData.get data "date").getD
                      (.vstr ((Hash.find existing "date").getD ""))),
                  cleanStr ((RawData.get data "service_provider").getD
                      (.vstr ((Hash.find existing "service_provider").getD ""))) with
            | some ty, some de, some da, some sp =>
                let m : MaintenanceRec :=
                  ⟨some maintenance_id,
                   some ((Hash.find existing "vehicle_id").getD ""), ty, de, da,
                   mileage, cost, sp,
                   optionalStrField data "notes", optionalStrField data "next_due_date",
                   optionalIntField data "next_due_mileage",
                   Hash.find existing "created_at", some now⟩
                (.ok m, Store.hset s key (maintRecordDict m))
            | _, _, _, _ => (.error ⟨422, "Validation error"⟩, s)

/-- `DELETE /api/maintenance/{maintenance_id}`. -/
def delete_maintenance_record (avail : Bool) (maintenance_id : String) (s : Store) :
    ApiResult String :=
  if !avail then (.error ⟨503, "Database unavailable"⟩, s)
  else
    match findMaintKey s maintenance_id with
    | none => (.error ⟨404, "Maintenance record not found"⟩, s)
    | some key => (.ok "Maintenance record deleted successfully", Store.del s key)

/-- An `Insurance` record: the typed pydantic body and the stored domain
record share this shape (`vehicle_id` is a required input field). -/
structure Insurance where
  id : Option String
  vehicle_id : String
  provider : String
  policy_number : String
  start_date : String
  end_date : String
  premium : PyFloat
  deductible : PyFloat
  coverage_type : String
  notes : Option String
  created_at : Option String
deriving DecidableEq

/-- `record.dict()` followed by the child-record stringify loop
(`None` becomes the empty string). -/
def insuranceDict (r : Insurance) : Hash :=
  [("id", r.id.getD ""), ("vehicle_id", r.vehicle_id),
   ("provider", r.provider), ("policy_number", r.policy_number),
   ("start_date", r.start_date), ("end_date", r.end_date),
   ("premium", r.premium.lit), ("deductible", r.deductible.lit),
   ("coverage_type", r.coverage_type), ("notes", r.notes.getD ""),
   ("created_at", r.created_at.getD "")]

/-- Decode a stored insurance hash (guarded `float` conversions then
`Insurance(**record_data)`). -/
def decodeInsurance (h : Hash) : Option Insurance :=
  match (Hash.find h "vehicle_id"), (Hash.find h "provider"),
        (Hash.find h "policy_number"), (Hash.find h "start_date"),
        (Hash.find h "end_date"),
        ((Hash.find h "premium").bind parseFloatStr),
        ((Hash.find h "deductible").bind parseFloatStr),
        (Hash.find h "coverage_type") with
  | some vi, some pr, some pn, some sd, some ed, some pm, some de, some ct =>
      some ⟨Hash.find h "id", vi, pr, pn, sd, ed, pm, de, ct,
            Hash.find h "notes", Hash.find h "created_at"⟩
  | _, _, _, _, _, _, _, _ => none

/-- `GET /api/vehicles/{vehicle_id}/insurance`. -/
def get_insurance_records (avail : Bool) (vehicle_id : String) (s : Store) :
    List Insurance :=
  if !avail then []
  else
    match decodeAll decodeInsurance s
        (Store.keysMatching s ("insurance:" ++ vehicle_id ++ ":")) with
    | some recs => sortDesc (fun x => x.start_date) recs
    | none => []

/-- `POST /api/vehicles/{vehicle_id}/insurance`. -/
def create_insurance_record (avail : Bool) (newId now : String) (vehicle_id : String)
    (record : Insurance) (s : Store) : ApiResult Insurance :=
  if !avail then (.error ⟨503, "Database unavailable"⟩, s)
  else if !(Store.existsKey s ("vehicle:" ++ vehicle_id)) then
    (.error ⟨404, "Vehicle not found"⟩, s)
  else
    let r := { record with id := some newId, vehicle_id := vehicle_id,
                           created_at := some now }
    (.ok r, Store.hset s ("insurance:" ++ vehicle_id ++ ":" ++ newId) (insuranceDict r))

/-- A `Registration` record. -/
structure Registration where
  id : Option String
  vehicle_id : String
  registration_number : String
  issue_date : String
  expiry_date : String
  state : String
  fee : PyFloat
  notes : Option String
  created_at : Option String
deriving DecidableEq

/-- `record.dict()` followed by the child-record stringify loop
(`None` becomes the empty string). -/
def registrationDict (r : Registration) : Hash :=
  [("id", r.id.getD ""), ("vehicle_id", r.vehicle_id),
   ("registration_number", r.registration_number),
   ("issue_date", r.issue_date), ("expiry_date", r.expiry_date),
   ("state", r.state), ("fee", r.fee.lit), ("notes", r.notes.getD ""),
   ("created_at", r.created_at.getD "")]

/-- Decode a stored registration hash. -/
def decodeRegistration (h : Hash) : Option Registration :=
  match (Hash.find h "vehicle_id"), (Hash.find h "registration_number"),
        (Hash.find h "issue_date"), (Hash.find h "expiry_date"),
        (Hash.find h "state"), ((Hash.find h "fee").bind parseFloatStr) with
  | some vi, some rn, some isd, some exd, some st, some fe =>
      some ⟨Hash.find h "id", vi, rn, isd, exd, st, fe,
            Hash.find h "notes", Hash.find h "created_at"⟩
  | _, _, _, _, _, _ => none

/-- `GET /api/vehicles/{vehicle_id}/registration`. -/
def get_registration_records (avail : Bool) (vehicle_id : String) (s : Store) :
    List Registration :=
  if !avail then []
  else
    match decodeAll decodeRegistration s
        (Store.keysMatching s ("registration:" ++ vehicle_id ++ ":")) with
    | some recs => sortDesc (fun x => x.issue_date) recs
    | none => []

/-- `POST /api/vehicles/{vehicle_id}/registration`. -/
def create_registration_record (avail : Bool) (newId now : String) (vehicle_id : String)
    (record : Registration) (s : Store) : ApiResult Registration :=
  if !avail then (.error ⟨503, "Database unavailable"⟩, s)
  else if !(Store.existsKey s ("vehicle:" ++ vehicle_id)) then
    (.error ⟨404, "Vehicle not found"⟩, s)
  else
    let r := { record with id := some newId, vehicle_id := vehicle_id,
                           created_at := some now }
    (.ok r,
     Store.hset s ("registration:" ++ vehicle_id ++ ":" ++ newId) (registrationDict r))

/-! ### Decimal round-trip: `parseIntStr (pyIntStr i) = some i` -/

theorem charDigit?_digitChar (d : Nat) (h : d < 10) :
    charDigit? (digitChar d) = some d := by
  interval_cases d <;> decide

theorem natToDigitsRev_lt (fuel n : Nat) :
    ∀ d ∈ natToDigitsRev fuel n, d < 10 := by
  induction fuel generalizing n with
  | zero => intro d hd; simp [natToDigitsRev] at hd
  | succ f ih =>
      intro d hd
      by_cases h0 : n = 0
      · simp [natToDigitsRev, h0] at hd
      · simp only [natToDigitsRev, h0, if_false, List.mem_cons] at hd
        rcases hd with h | h
        · subst h; exact Nat.mod_lt _ (by norm_num)
        · exact ih _ _ h

theorem ofDigits_natToDigitsRev (fuel n : Nat) (h : n ≤ fuel) :
    Nat.ofDigits 10 (natToDigitsRev fuel n) = n := by
  induction fuel generalizing n with
  | zero => interval_cases n; simp [natToDigitsRev, Nat.ofDigits]
  | succ f ih =>
      by_cases h0 : n = 0
      · simp [natToDigitsRev, h0, Nat.ofDigits]
      · have hdiv : n / 10 ≤ f := by
          have : n / 10 < n := Nat.div_lt_self (Nat.pos_of_ne_zero h0) (by norm_num)
          omega
        simp only [natToDigitsRev, h0, if_false, Nat.ofDigits_cons, ih _ hdiv]
        omega

theorem natToDigitsRev_ne_nil (fuel n : Nat) (h0 : n ≠ 0) (hf : fuel ≠ 0) :
    natToDigitsRev fuel n ≠ [] := by
  cases fuel with
  | zero => exact absurd rfl hf
  | succ f => simp [natToDigitsRev, h0]

theorem charsDigits?_map_digitChar (l : List Nat) (h : ∀ d ∈ l, d < 10) :
    charsDigits? (l.map digitChar) = some l := by
  induction l with
  | nil => rfl
  | cons d ds ih =>
      have hd : d < 10 := h d (List.mem_cons_self d ds)
      have hds : ∀ x ∈ ds, x < 10 := fun x hx => h x (List.mem_cons_of_mem _ hx)
      simp [charsDigits?, charDigit?_digitChar d hd, ih hds]

theorem parseNatChars_render (n : Nat) (h : n ≠ 0) :
    parseNatChars ((natToDigitsRev (n + 1) n).reverse.map digitChar) = some n := by
  have hlt : ∀ d ∈ (natToDigitsRev (n + 1) n).reverse, d < 10 := by
    intro d hd
    exact natToDigitsRev_lt _ _ d (List.mem_reverse.mp hd)
  have hne : (natToDigitsRev (n + 1) n).reverse ≠ [] := by
    simp only [ne_eq, List.reverse_eq_nil_iff]
    exact natToDigitsRev_ne_nil _ _ h (Nat.succ_ne_zero n)
  simp only [parseNatChars, charsDigits?_map_digitChar _ hlt]
  rw [if_neg (by simpa [List.isEmpty_iff] using hne)]
  rw [List.reverse_reverse, ofDigits_natToDigitsRev _ _ (Nat.le_succ n)]

theorem pyNatStr_data (n : Nat) (h : n ≠ 0) :
    (pyNatStr n).data = (natToDigitsRev (n + 1) n).reverse.map digitChar := by
  simp [pyNatStr, h]

theorem parseIntStr_pyIntStr (i : Int) : parseIntStr (pyIntStr i) = some i := by
  by_cases hneg : i < 0
  · have habs : i.natAbs ≠ 0 := by
      simp only [ne_eq, Int.natAbs_eq_zero]
      omega
    have hdata : (pyIntStr i).data = '-' :: (pyNatStr i.natAbs).data := by
      simp [pyIntStr, hneg, String.data_append]
    rw [parseIntStr, hdata]
    simp only [if_pos rfl]
    rw [pyNatStr_data _ habs, parseNatChars_render _ habs]
    have : (i.natAbs : Int) = -i := Int.ofNat_natAbs_of_nonpos (le_of_lt hneg)
    simp [this]
  · by_cases h0 : i = 0
    · subst h0; decide
    · have habs : i.natAbs ≠ 0 := by
        simp only [ne_eq, Int.natAbs_eq_zero]
        exact h0
      have hdata : (pyIntStr i).data = (natToDigitsRev (i.natAbs + 1) i.natAbs).reverse.map digitChar := by
        simp [pyIntStr, hneg, pyNatStr_data _ habs]
      rcases e : (natToDigitsRev (i.natAbs + 1) i.natAbs).reverse with _ | ⟨d, ds⟩
      · exact absurd (by simpa [List.reverse_eq_nil_iff] using e)
          (natToDigitsRev_ne_nil _ _ habs (Nat.succ_ne_zero _))
      · have hd : d < 10 := by
          have := natToDigitsRev_lt (i.natAbs + 1) i.natAbs d
          exact this (List.mem_reverse.mp (by rw [e]; exact List.mem_cons_self _ _))
        have hchar : (digitChar d = '-') = False ∧ (digitChar d = '+') = False := by
          constructor <;> (simp only [eq_iff_iff, iff_false]; interval_cases d <;> decide)
        rw [parseIntStr, hdata, e]
        simp only [List.map_cons, hchar.1, hchar.2, if_false]
        rw [← List.map_cons, ← e, parseNatChars_render _ habs]
        simp [Int.natAbs_of_nonneg (not_lt.mp hneg)]

/-! ### Store and hash lemmas -/

theorem Hash.find_merge (old new : Hash) (k : String) :
    Hash.find (Hash.merge old new) k =
      match Hash.find new k with
      | some v => some v
      | none => Hash.find old k := by
  induction old with
  | nil =>
      simp only [Hash.merge, List.filter_nil, List.nil_append]
      cases Hash.find new k <;> simp [Hash.find]
  | cons p rest ih =>
      obtain ⟨k1, v1⟩ := p
      by_cases hk : k1 = k
      · subst hk
        cases hn : Hash.find new k1 with
        | some v =>
            simp only [Hash.merge, List.filter_cons] at *
            rw [show (Hash.find new k1).isNone = false by rw [hn]; rfl] at *
            simpa [hn] using ih
        | none =>
            simp only [Hash.merge, List.filter_cons] at *
            rw [show (Hash.find new k1).isNone = true by rw [hn]; rfl]
            simp [Hash.find, hn]
      · simp only [Hash.merge, List.filter_cons] at *
        cases hp : (Hash.find new k1).isNone
        · simpa [Hash.find, hk] using ih
        · simpa [Hash.find, hk] using ih

theorem Hash.merge_ne_nil (old new : Hash) (h : new ≠ []) :
    Hash.merge old new ≠ [] := by
  simp only [Hash.merge, ne_eq, List.append_eq_nil]
  exact fun hc => h hc.2

theorem Store.lookup_hset_self (s : Store) (k : String) (m : Hash) :
    Store.lookup (Store.hset s k m) k = some (Hash.merge (Store.hgetall s k) m) := by
  induction s with
  | nil => simp [Store.hset, Store.lookup, Store.hgetall, Hash.merge]
  | cons p rest ih =>
      obtain ⟨k1, h1⟩ := p
      by_cases hk : k1 = k
      · subst hk
        simp [Store.hset, Store.lookup, Store.hgetall]
      · simp [Store.hset, Store.lookup, Store.hgetall, hk, ih]

theorem Store.hgetall_hset_self (s : Store) (k : String) (m : Hash) :
    Store.hgetall (Store.hset s k m) k = Hash.merge (Store.hgetall s k) m := by
  simp [Store.hgetall, Store.lookup_hset_self]

theorem Store.lookup_hset_ne (s : Store) (k k' : String) (m : Hash) (h : k' ≠ k) :
    Store.lookup (Store.hset s k m) k' = Store.lookup s k' := by
  induction s with
  | nil => simp [Store.hset, Store.lookup, Ne.symm h]
  | cons p rest ih =>
      obtain ⟨k1, h1⟩ := p
      by_cases hk : k1 = k
      · subst hk
        simp [Store.hset, Store.lookup, Ne.symm h]
      · by_cases hk' : k1 = k'
        · subst hk'
          simp [Store.hset, Store.lookup, hk]
        · simp [Store.hset, Store.lookup, hk, hk', ih]

theorem Store.lookup_eq_none_of_not_mem_keys (s : Store) (k : String)
    (h : k ∉ Store.keys s) : Store.lookup s k = none := by
  induction s with
  | nil => rfl
  | cons p rest ih =>
      obtain ⟨k1, h1⟩ := p
      simp only [Store.keys, List.map_cons, List.mem_cons] at h
      push_neg at h
      simp only [Store.lookup]
      rw [if_neg (fun e => h.1 e.symm)]
      exact ih (by simpa [Store.keys] using h.2)

theorem Store.mem_keys_del (s : Store) (k k' : String) :
    (k' ∈ Store.keys (Store.del s k)) ↔ (k' ∈ Store.keys s ∧ k' ≠ k) := by
  simp only [Store.keys, Store.del, List.mem_map, List.mem_filter]
  constructor
  · rintro ⟨p, ⟨hp, hpred⟩, rfl⟩
    refine ⟨⟨p, hp, rfl⟩, ?_⟩
    simpa using hpred
  · rintro ⟨⟨p, hp, rfl⟩, hne⟩
    exact ⟨p, ⟨hp, by simpa using hne⟩, rfl⟩

theorem Store.mem_keys_foldl_del (L : List String) (s : Store) (k : String) :
    (k ∈ Store.keys (L.foldl Store.del s)) ↔ (k ∈ Store.keys s ∧ k ∉ L) := by
  induction L generalizing s with
  | nil => simp
  | cons x xs ih =>
      simp only [List.foldl_cons, ih, Store.mem_keys_del, List.mem_cons]
      constructor
      · rintro ⟨⟨h1, h2⟩, h3⟩
        exact ⟨h1, by simp [h2, h3]⟩
      · rintro ⟨h1, h2⟩
        push_neg at h2
        exact ⟨⟨h1, h2.1⟩, h2.2⟩

theorem Store.existsKey_eq_false_of_not_mem (s : Store) (k : String)
    (h : k ∉ Store.keys s) : Store.existsKey s k = false := by
  simp [Store.existsKey, Store.hgetall, Store.lookup_eq_none_of_not_mem_keys s k h]

theorem Store.lookup_isSome_of_mem_keys (s : Store) (k : String)
    (h : k ∈ Store.keys s) : ∃ hsh, Store.lookup s k = some hsh := by
  induction s with
  | nil => simp [Store.keys] at h
  | cons p rest ih =>
      obtain ⟨k1, h1⟩ := p
      by_cases hk : k1 = k
      · subst hk; exact ⟨h1, by simp [Store.lookup]⟩
      · simp only [Store.keys, List.map_cons, List.mem_cons] at h
        rcases h with h | h
        · exact absurd h.symm hk
        · rcases ih h with ⟨hsh, hl⟩
          exact ⟨hsh, by simp [Store.lookup, hk, hl]⟩

theorem Store.lookup_mem (s : Store) (k : String) (hsh : Hash)
    (h : Store.lookup s k = some hsh) : (k, hsh) ∈ s := by
  induction s with
  | nil => simp [Store.lookup] at h
  | cons p rest ih =>
      obtain ⟨k1, h1⟩ := p
      simp only [Store.lookup] at h
      split at h
      · next heq =>
          subst heq
          obtain rfl : h1 = hsh := Option.some.inj h
          exact List.mem_cons_self _ _
      · next hne => exact List.mem_cons_of_mem _ (ih h)

/-! ### Prefix lemmas -/

theorem isPre_append (p t : List Char) : isPre p (p ++ t) = true := by
  induction p with
  | nil => rfl
  | cons c cs ih => simp [isPre, ih]

theorem keyStarts_append (p t : String) : keyStarts p (p ++ t) = true := by
  simp only [keyStarts, String.data_append]
  exact isPre_append p.data t.data

/-! ### Sorting lemmas -/

theorem mem_insertDesc {α : Type} (key : α → String) (x z : α) (l : List α)
    (h : z ∈ insertDesc key x l) : z = x ∨ z ∈ l := by
  induction l with
  | nil => simpa [insertDesc] using h
  | cons y ys ih =>
      simp only [insertDesc] at h
      by_cases hc : strLtB (key y) (key x)
      · rw [if_pos hc] at h
        simpa using h
      · rw [if_neg hc] at h
        simp only [List.mem_cons] at h
        rcases h with h | h
        · exact Or.inr (by simp [h])
        · rcases ih h with h | h
          · exact Or.inl h
          · exact Or.inr (List.mem_cons_of_mem _ h)

theorem charsLt_asymm (a b : List Char) (h : charsLt a b = true) :
    charsLt b a = false := by
  induction a generalizing b with
  | nil =>
      cases b with
      | nil => simp [charsLt] at h
      | cons d ds => simp [charsLt]
  | cons c cs ih =>
      cases b with
      | nil => simp [charsLt] at h
      | cons d ds =>
          simp only [charsLt] at h ⊢
          by_cases h1 : c.toNat < d.toNat
          · rw [if_neg (by omega), if_pos h1]
          · rw [if_neg h1] at h
            by_cases h2 : d.toNat < c.toNat
            · rw [if_pos h2] at h; exact absurd h (by simp)
            · rw [if_neg h2] at h
              rw [if_neg h2, if_neg h1]
              exact ih ds h

theorem charsLt_cross (b x z : List Char) (h1 : charsLt b x = true)
    (h2 : charsLt b z = false) : charsLt x z = false := by
  induction b generalizing x z with
  | nil =>
      cases z with
      | nil => cases x with
        | nil => simp [charsLt] at h1
        | cons c cs => simp [charsLt]
      | cons e es => simp [charsLt] at h2
  | cons c cs ih =>
      cases x with
      | nil => simp [charsLt] at h1
      | cons d ds =>
          cases z with
          | nil => simp [charsLt]
          | cons e es =>
              simp only [charsLt] at h1 h2 ⊢
              by_cases hcd : c.toNat < d.toNat
              · by_cases hce : c.toNat < e.toNat
                · rw [if_pos hce] at h2; exact absurd h2 (by simp)
                · -- e ≤ c < d, hence e < d
                  rw [if_neg (by omega), if_pos (by omega)]
              · rw [if_neg hcd] at h1
                by_cases hdc : d.toNat < c.toNat
                · rw [if_pos hdc] at h1; exact absurd h1 (by simp)
                · rw [if_neg hdc] at h1
                  -- c and d have equal code points
                  have hce : ¬ c.toNat < e.toNat := by
                    intro hce
                    rw [if_pos hce] at h2; exact absurd h2 (by simp)
                  rw [if_neg hce] at h2
                  rw [if_neg (by omega)]
                  by_cases hec : e.toNat < c.toNat
                  · rw [if_pos hec] at h2
                    rw [if_pos (show e.toNat < d.toNat by omega)]
                  · rw [if_neg hec] at h2
                    rw [if_neg (show ¬ e.toNat < d.toNat by omega)]
                    exact ih ds es h1 h2

theorem strLtB_asymm (a b : String) (h : strLtB a b = true) : strLtB b a = false :=
  charsLt_asymm a.data b.data h

theorem strLtB_cross (b x z : String) (h1 : strLtB b x = true)
    (h2 : strLtB b z = false) : strLtB x z = false :=
  charsLt_cross b.data x.data z.data h1 h2

theorem pairwise_insertDesc {α : Type} (key : α → String) (x : α) (l : List α)
    (h : l.Pairwise (fun a b => strLtB (key a) (key b) = false)) :
    (insertDesc key x l).Pairwise (fun a b => strLtB (key a) (key b) = false) := by
  induction l with
  | nil => simp [insertDesc]
  | cons y ys ih =>
      rcases List.pairwise_cons.mp h with ⟨hy, hys⟩
      simp only [insertDesc]
      by_cases hc : strLtB (key y) (key x)
      · rw [if_pos hc]
        refine List.pairwise_cons.mpr ⟨?_, h⟩
        intro z hz
        simp only [List.mem_cons] at hz
        rcases hz with hz | hz
        · subst hz; exact strLtB_asymm _ _ hc
        · exact strLtB_cross (key y) (key x) (key z) hc (hy z hz)
      · rw [if_neg hc]
        refine List.pairwise_cons.mpr ⟨?_, ih hys⟩
        intro z hz
        rcases mem_insertDesc key x z ys hz with hz | hz
        · subst hz; exact eq_false_of_ne_true hc
        · exact hy z hz

theorem sortDesc_pairwise {α : Type} (key : α → String) (l : List α) :
    (sortDesc key l).Pairwise (fun a b => strLtB (key a) (key b) = false) := by
  induction l with
  | nil => simp [sortDesc]
  | cons x xs ih => exact pairwise_insertDesc key x _ ih

theorem insertDesc_perm {α : Type} (key : α → String) (x : α) (l : List α) :
    List.Perm (insertDesc key x l) (x :: l) := by
  induction l with
  | nil => simp [insertDesc]
  | cons y ys ih =>
      simp only [insertDesc]
      by_cases hc : strLtB (key y) (key x)
      · rw [if_pos hc]
      · rw [if_neg hc]
        exact (List.Perm.cons y ih).trans (List.Perm.swap x y ys)

theorem sortDesc_perm {α : Type} (key : α → String) (l : List α) :
    List.Perm (sortDesc key l) l := by
  induction l with
  | nil => simp [sortDesc]
  | cons x xs ih =>
      exact (insertDesc_perm key x (sortDesc key xs)).trans (List.Perm.cons x ih)

/-! ### Key discrimination utilities -/

theorem isPre_cons_cons (c d : Char) (cs ds : List Char) :
    isPre (c :: cs) (d :: ds) = ((c = d : Bool) && isPre cs ds) := rfl

theorem keyStarts_false_head (p s : String) (c d : Char) (hc : p.data.head? = some c)
    (hd : s.data.head? = some d) (hcd : c ≠ d) : keyStarts p s = false := by
  rcases hp : p.data with _ | ⟨c1, cp⟩
  · rw [hp] at hc; simp at hc
  · rcases hs : s.data with _ | ⟨d1, ds⟩
    · rw [hs] at hd; simp at hd
    · rw [hp, List.head?_cons] at hc
      rw [hs, List.head?_cons] at hd
      obtain rfl : c1 = c := Option.some.inj hc
      obtain rfl : d1 = d := Option.some.inj hd
      simp only [keyStarts]
      rw [hp, hs, isPre_cons_cons]
      simp [hcd]

theorem head?_data_append (a b : String) (c : Char) (h : a.data.head? = some c) :
    (a ++ b).data.head? = some c := by
  rw [String.data_append]
  rcases ha : a.data with _ | ⟨c1, cs⟩
  · rw [ha] at h; simp at h
  · rw [ha] at h
    simpa using h

theorem Store.mem_keys_of_existsKey (s : Store) (k : String)
    (h : Store.existsKey s k = true) : k ∈ Store.keys s := by
  by_contra hm
  rw [Store.existsKey_eq_false_of_not_mem s k hm] at h
  simp at h

theorem Store.lookup_del_ne (s : Store) (x k : String) (h : k ≠ x) :
    Store.lookup (Store.del s x) k = Store.lookup s k := by
  induction s with
  | nil => rfl
  | cons p rest ih =>
      obtain ⟨k1, h1⟩ := p
      by_cases hx : k1 = x
      · subst hx
        simp only [Store.del, List.filter_cons]
        rw [if_neg (by simp)]
        simp only [Store.del] at ih
        rw [ih]
        simp only [Store.lookup]
        rw [if_neg (fun e => h e.symm)]
      · simp only [Store.del, List.filter_cons]
        rw [if_pos (by simp [hx])]
        simp only [Store.lookup, Store.del] at *
        by_cases hk : k1 = k
        · simp [hk]
        · simp [hk, ih]

theorem Store.lookup_foldl_del (L : List String) (s : Store) (k : String)
    (h : k ∉ L) : Store.lookup (L.foldl Store.del s) k = Store.lookup s k := by
  induction L generalizing s with
  | nil => rfl
  | cons x xs ih =>
      simp only [List.mem_cons] at h
      push_neg at h
      simp only [List.foldl_cons]
      rw [ih _ h.2, Store.lookup_del_ne _ _ _ h.1]

/-! ### Claims -/

/-- C1: with the backend store unreachable, every list read returns the
empty list while every write or delete fails with the 503 error
"Database unavailable" — reads and writes are never treated alike. -/
theorem c1_unavailable_read_write_split (s : Store) (vid newId now : String)
    (v : VehicleIn) (d : RawData) (ins : Insurance) (reg : Registration) :
    get_vehicles false s = []
    ∧ get_maintenance_records false vid s = []
    ∧ get_insurance_records false vid s = []
    ∧ get_registration_records false vid s = []
    ∧ create_vehicle false newId now v s = (.error ⟨503, "Database unavailable"⟩, s)
    ∧ update_vehicle false now vid v s = (.error ⟨503, "Database unavailable"⟩, s)
    ∧ delete_vehicle false vid s = (.error ⟨503, "Database unavailable"⟩, s)
    ∧ create_maintenance_record false newId now vid d s
        = (.error ⟨503, "Database unavailable"⟩, s)
    ∧ update_maintenance_record false now vid d s
        = (.error ⟨503, "Database unavailable"⟩, s)
    ∧ delete_maintenance_record false vid s = (.error ⟨503, "Database unavailable"⟩, s)
    ∧ create_insurance_record false newId now vid ins s
        = (.error ⟨503, "Database unavailable"⟩, s)
    ∧ create_registration_record false newId now vid reg s
        = (.error ⟨503, "Database unavailable"⟩, s) :=
  ⟨rfl, rfl, rfl, rfl, rfl, rfl, rfl, rfl, rfl, rfl, rfl, rfl⟩

/-- C2: creating a maintenance, insurance or registration record against
a vehicle id absent from the store yields 404 "Vehicle not found" and
leaves the store exactly unchanged (no partial write). -/
theorem c2_child_create_missing_vehicle (vid newId now : String) (d : RawData)
    (ins : Insurance) (reg : Registration) (s : Store)
    (h : Store.existsKey s ("vehicle:" ++ vid) = false) :
    create_maintenance_record true newId now vid d s
      = (.error ⟨404, "Vehicle not found"⟩, s)
    ∧ create_insurance_record true newId now vid ins s
      = (.error ⟨404, "Vehicle not found"⟩, s)
    ∧ create_registration_record true newId now vid reg s
      = (.error ⟨404, "Vehicle not found"⟩, s) := by
  refine ⟨?_, ?_, ?_⟩
  · simp [create_maintenance_record, h]
  · simp [create_insurance_record, h]
  · simp [create_registration_record, h]

/-- Sample insurance body used by concrete witnesses. -/
def exIns : Insurance :=
  ⟨none, "v", "P", "PN", "2024-01-01", "2025-01-01", ⟨"10.0"⟩, ⟨"5.0"⟩, "full", none, none⟩

/-- Sample registration body used by concrete witnesses. -/
def exReg : Registration :=
  ⟨none, "v", "R1", "2024-01-01", "2025-01-01", "CA", ⟨"10.0"⟩, none, none⟩

/-- Witness for C2 at a concrete empty store. -/
theorem c2_child_create_missing_vehicle_witness :
    create_maintenance_record true "m1" "T1" "ghost" [] []
      = (.error ⟨404, "Vehicle not found"⟩, [])
    ∧ create_insurance_record true "i1" "T1" "ghost" exIns []
      = (.error ⟨404, "Vehicle not found"⟩, [])
    ∧ create_registration_record true "r1" "T1" "ghost" exReg []
      = (.error ⟨404, "Vehicle not found"⟩, []) := by
  have h1 := c2_child_create_missing_vehicle "ghost" "m1" "T1" [] exIns exReg [] rfl
  have h2 := c2_child_create_missing_vehicle "ghost" "i1" "T1" [] exIns exReg [] rfl
  have h3 := c2_child_create_missing_vehicle "ghost" "r1" "T1" [] exIns exReg [] rfl
  exact ⟨h1.1, h2.2.1, h3.2.2⟩

/-- C3: deleting an existing vehicle succeeds for any numbers of child
records (including none); afterwards no key remains for that vehicle or
under any of its three child prefixes, and through every intermediate
state of the child deletions the vehicle key itself is still present
(children are deleted before the parent). -/
theorem c3_cascade_delete (vid : String) (s : Store)
    (h : Store.existsKey s ("vehicle:" ++ vid) = true) :
    (delete_vehicle true vid s).1 = .ok "Vehicle deleted successfully"
    ∧ (∀ k ∈ Store.keys (delete_vehicle true vid s).2,
         k ≠ "vehicle:" ++ vid
         ∧ keyStarts ("maintenance:" ++ vid ++ ":") k = false
         ∧ keyStarts ("insurance:" ++ vid ++ ":") k = false
         ∧ keyStarts ("registration:" ++ vid ++ ":") k = false)
    ∧ (∀ n, Store.existsKey (((cascadeChildKeys s vid).take n).foldl Store.del s)
          ("vehicle:" ++ vid) = true) := by
  have hveh_not_child : "vehicle:" ++ vid ∉ cascadeChildKeys s vid := by
    intro hmem
    have hv : ("vehicle:" ++ vid).data.head? = some 'v' :=
      head?_data_append "vehicle:" vid 'v' rfl
    simp only [cascadeChildKeys, List.mem_append, Store.keysMatching,
      List.mem_filter] at hmem
    rcases hmem with (⟨_, hk⟩ | ⟨_, hk⟩) | ⟨_, hk⟩
    · rw [keyStarts_false_head _ _ 'm' 'v'
        (head?_data_append ("maintenance:" ++ vid) ":" 'm'
          (head?_data_append "maintenance:" vid 'm' rfl)) hv
        (by decide)] at hk
      exact absurd hk (by simp)
    · rw [keyStarts_false_head _ _ 'i' 'v'
        (head?_data_append ("insurance:" ++ vid) ":" 'i'
          (head?_data_append "insurance:" vid 'i' rfl)) hv
        (by decide)] at hk
      exact absurd hk (by simp)
    · rw [keyStarts_false_head _ _ 'r' 'v'
        (head?_data_append ("registration:" ++ vid) ":" 'r'
          (head?_data_append "registration:" vid 'r' rfl)) hv
        (by decide)] at hk
      exact absurd hk (by simp)
  have hdel : delete_vehicle true vid s =
      (.ok "Vehicle deleted successfully",
       Store.del ((cascadeChildKeys s vid).foldl Store.del s) ("vehicle:" ++ vid)) := by
    simp [delete_vehicle, h]
  refine ⟨by rw [hdel], ?_, ?_⟩
  · intro k hk
    rw [hdel] at hk
    rcases (Store.mem_keys_del _ _ _).mp hk with ⟨hk1, hkne⟩
    rcases (Store.mem_keys_foldl_del _ _ _).mp hk1 with ⟨hks, hknc⟩
    refine ⟨hkne, ?_, ?_, ?_⟩
    · cases hb : keyStarts ("maintenance:" ++ vid ++ ":") k
      · rfl
      · exact absurd (by
          simp only [cascadeChildKeys, List.mem_append]
          exact Or.inl (Or.inl (List.mem_filter.mpr ⟨hks, hb⟩))) hknc
    · cases hb : keyStarts ("insurance:" ++ vid ++ ":") k
      · rfl
      · exact absurd (by
          simp only [cascadeChildKeys, List.mem_append]
          exact Or.inl (Or.inr (List.mem_filter.mpr ⟨hks, hb⟩))) hknc
    · cases hb : keyStarts ("registration:" ++ vid ++ ":") k
      · rfl
      · exact absurd (by
          simp only [cascadeChildKeys, List.mem_append]
          exact Or.inr (List.mem_filter.mpr ⟨hks, hb⟩)) hknc
  · intro n
    have hnot : "vehicle:" ++ vid ∉ (cascadeChildKeys s vid).take n :=
      fun hmem => hveh_not_child (List.take_subset n _ hmem)
    simp only [Store.existsKey, Store.hgetall,
      Store.lookup_foldl_del _ _ _ hnot]
    exact h

/-- A store with one vehicle holding one child record of each kind,
used by concrete witnesses. -/
def exCascadeStore : Store :=
  [("vehicle:v", [("make", "M")]),
   ("maintenance:v:m1", [("vehicle_id", "v")]),
   ("insurance:v:i1", [("vehicle_id", "v")]),
   ("registration:v:r1", [("vehicle_id", "v")])]

/-- Witness for C3: on the sample store the delete succeeds. -/
theorem c3_cascade_delete_witness :
    (delete_vehicle true "v" exCascadeStore).1 = .ok "Vehicle deleted successfully" :=
  (c3_cascade_delete "v" exCascadeStore rfl).1

/-! ### Vehicle round-trip machinery -/

theorem Hash.find_merge_eq_of_find (old new : Hash) (k v : String)
    (h : Hash.find new k = some v) :
    Hash.find (Hash.merge old new) k = some v := by
  rw [Hash.find_merge, h]

theorem Hash.merge_isEmpty_false (old new : Hash) (h : new.isEmpty = false) :
    (Hash.merge old new).isEmpty = false := by
  cases e : (Hash.merge old new).isEmpty
  · rfl
  · exfalso
    have : Hash.merge old new = [] := by
      simpa [List.isEmpty_iff] using e
    rcases List.append_eq_nil.mp this with ⟨-, h2⟩
    rw [h2] at h
    simp at h

/-- The hash written for a fully populated vehicle record. -/
def vehicleHashOf (i cr up : String) (v : VehicleIn) : Hash :=
  [("id", i), ("make", v.make), ("model", v.model), ("year", pyIntStr v.year),
   ("vin", v.vin), ("license_plate", v.license_plate), ("color", v.color),
   ("mileage", pyIntStr v.mileage), ("created_at", cr), ("updated_at", up)]

theorem hsetEncode_vehicle (i cr up : String) (v : VehicleIn) :
    hsetEncode (vehicleHsetMapping
      ⟨some i, v.make, v.model, v.year, v.vin, v.license_plate, v.color,
       v.mileage, some cr, some up⟩) = some (vehicleHashOf i cr up v) := rfl

theorem get_vehicle_after_hset (s : Store) (vid i cr up : String) (v : VehicleIn) :
    get_vehicle true vid (Store.hset s ("vehicle:" ++ vid) (vehicleHashOf i cr up v))
      = .ok ⟨some i, v.make, v.model, v.year, v.vin, v.license_plate, v.color,
             v.mileage, some cr, some up⟩ := by
  have hne : (Store.hgetall (Store.hset s ("vehicle:" ++ vid)
      (vehicleHashOf i cr up v)) ("vehicle:" ++ vid)).isEmpty = false := by
    rw [Store.hgetall_hset_self]
    exact Hash.merge_isEmpty_false _ _ rfl
  have hdec : decodeVehicle (Store.hgetall (Store.hset s ("vehicle:" ++ vid)
      (vehicleHashOf i cr up v)) ("vehicle:" ++ vid))
      = some ⟨some i, v.make, v.model, v.year, v.vin, v.license_plate, v.color,
              v.mileage, some cr, some up⟩ := by
    rw [Store.hgetall_hset_self]
    have hm := Hash.find_merge_eq_of_find (Store.hgetall s ("vehicle:" ++ vid))
      (vehicleHashOf i cr up v)
    simp only [decodeVehicle,
      hm "id" i (by simp [vehicleHashOf, Hash.find]),
      hm "make" v.make (by simp [vehicleHashOf, Hash.find]),
      hm "model" v.model (by simp [vehicleHashOf, Hash.find]),
      hm "year" (pyIntStr v.year) (by simp [vehicleHashOf, Hash.find]),
      hm "vin" v.vin (by simp [vehicleHashOf, Hash.find]),
      hm "license_plate" v.license_plate (by simp [vehicleHashOf, Hash.find]),
      hm "color" v.color (by simp [vehicleHashOf, Hash.find]),
      hm "mileage" (pyIntStr v.mileage) (by simp [vehicleHashOf, Hash.find]),
      hm "created_at" cr (by simp [vehicleHashOf, Hash.find]),
      hm "updated_at" up (by simp [vehicleHashOf, Hash.find]),
      Option.some_bind, parseIntStr_pyIntStr]
  simp only [get_vehicle, Bool.not_true, if_false, Bool.false_eq_true]
  rw [if_neg (by rw [hne]; exact Bool.false_ne_true), hdec]

theorem create_vehicle_eq (i now : String) (v : VehicleIn) (s : Store) :
    create_vehicle true i now v s
      = (.ok ⟨some i, v.make, v.model, v.year, v.vin, v.license_plate, v.color,
              v.mileage, some now, some now⟩,
         Store.hset s ("vehicle:" ++ i) (vehicleHashOf i now now v)) := rfl

theorem update_vehicle_on_stored (s : Store) (vid now2 cr : String) (v2 : VehicleIn)
    (hne : (Store.hgetall s ("vehicle:" ++ vid)).isEmpty = false)
    (hcr : Hash.find (Store.hgetall s ("vehicle:" ++ vid)) "created_at" = some cr) :
    update_vehicle true now2 vid v2 s
      = (.ok ⟨some vid, v2.make, v2.model, v2.year, v2.vin, v2.license_plate,
              v2.color, v2.mileage, some cr, some now2⟩,
         Store.hset s ("vehicle:" ++ vid) (vehicleHashOf vid cr now2 v2)) := by
  simp only [update_vehicle, Bool.not_true, if_false, Bool.false_eq_true]
  rw [if_neg (by rw [hne]; exact Bool.false_ne_true), hcr]
  rfl

/-- C4: creating a vehicle and reading it back returns every attribute
field unchanged, with `id`, `created_at` and `updated_at` the
server-assigned values; updating the vehicle afterwards keeps the
original id and `created_at` while `updated_at` becomes the new
timestamp, both in the returned record and in a subsequent read. -/
theorem c4_vehicle_roundtrip (v v2 : VehicleIn) (i now now2 : String) (s : Store) :
    (create_vehicle true i now v s).1
      = .ok ⟨some i, v.make, v.model, v.year, v.vin, v.license_plate, v.color,
             v.mileage, some now, some now⟩
    ∧ get_vehicle true i (create_vehicle true i now v s).2
      = .ok ⟨some i, v.make, v.model, v.year, v.vin, v.license_plate, v.color,
             v.mileage, some now, some now⟩
    ∧ (update_vehicle true now2 i v2 (create_vehicle true i now v s).2).1
      = .ok ⟨some i, v2.make, v2.model, v2.year, v2.vin, v2.license_plate, v2.color,
             v2.mileage, some now, some now2⟩
    ∧ get_vehicle true i (update_vehicle true now2 i v2 (create_vehicle true i now v s).2).2
      = .ok ⟨some i, v2.make, v2.model, v2.year, v2.vin, v2.license_plate, v2.color,
             v2.mileage, some now, some now2⟩ := by
  have hs1 : (create_vehicle true i now v s).2
      = Store.hset s ("vehicle:" ++ i) (vehicleHashOf i now now v) := by
    rw [create_vehicle_eq]
  have hne : (Store.hgetall ((create_vehicle true i now v s).2)
      ("vehicle:" ++ i)).isEmpty = false := by
    rw [hs1, Store.hgetall_hset_self]
    exact Hash.merge_isEmpty_false _ _ rfl
  have hcr : Hash.find (Store.hgetall ((create_vehicle true i now v s).2)
      ("vehicle:" ++ i)) "created_at" = some now := by
    rw [hs1, Store.hgetall_hset_self]
    exact Hash.find_merge_eq_of_find _ _ _ _ (by simp [vehicleHashOf, Hash.find])
  have hupd := update_vehicle_on_stored ((create_vehicle true i now v s).2)
      i now2 now v2 hne hcr
  refine ⟨by rw [create_vehicle_eq], ?_, by rw [hupd], ?_⟩
  · rw [hs1]
    exact get_vehicle_after_hset s i i now now v
  · rw [hupd]
    exact get_vehicle_after_hset _ i i now now2 v2

/-- C5: for a maintenance create on an existing vehicle, an unparseable
`mileage` yields 422 "Invalid mileage value", an unparseable `cost`
(with `mileage` fine) yields 422 "Invalid cost value", while a truthy
but unparseable `next_due_mileage` does not fail: the create succeeds
and `next_due_mileage` is absent in the resulting record (stored as the
empty string). -/
theorem c5_maintenance_numeric_validation (vid newId now : String) (d : RawData)
    (s : Store) (hveh : Store.existsKey s ("vehicle:" ++ vid) = true) :
    (∀ w, RawData.get d "mileage" = some w → parsePyInt w = none →
        create_maintenance_record true newId now vid d s
          = (.error ⟨422, "Invalid mileage value"⟩, s))
    ∧ (∀ m w, parsePyInt ((RawData.get d "mileage").getD (.vint 0)) = some m →
        RawData.get d "cost" = some w → parsePyFloat w = none →
        create_maintenance_record true newId now vid d s
          = (.error ⟨422, "Invalid cost value"⟩, s))
    ∧ (∀ m c ty de da sp w,
        parsePyInt ((RawData.get d "mileage").getD (.vint 0)) = some m →
        (match RawData.get d "cost" with
         | some v => parsePyFloat v
         | none => some ⟨"0.0"⟩) = some c →
        cleanStr ((RawData.get d "type").getD (.vstr "")) = some ty →
        cleanStr ((RawData.get d "description").getD (.vstr "")) = some de →
        cleanStr ((RawData.get d "date").getD (.vstr "")) = some da →
        cleanStr ((RawData.get d "service_provider").getD (.vstr "")) = some sp →
        RawData.get d "next_due_mileage" = some w → pyTruthy w = true →
        parsePyInt w = none →
        ∃ rec st, create_maintenance_record true newId now vid d s = (.ok rec, st)
          ∧ rec.next_due_mileage = none
          ∧ Hash.find (Store.hgetall st ("maintenance:" ++ vid ++ ":" ++ newId))
              "next_due_mileage" = some "") := by
  refine ⟨?_, ?_, ?_⟩
  · intro w hw hp
    simp [create_maintenance_record, hveh, hw, hp]
  · intro m w hm hw hp
    simp [create_maintenance_record, hveh, hm, hw, hp]
  · intro m c ty de da sp w hm hc hty hde hda hsp hw htr hp
    have hndm : optionalIntField d "next_due_mileage" = none := by
      simp [optionalIntField, hw, htr, hp]
    refine ⟨⟨some newId, some vid, ty, de, da, m, c, sp,
            optionalStrField d "notes", optionalStrField d "next_due_date",
            none, some now, some now⟩,
          Store.hset s ("maintenance:" ++ vid ++ ":" ++ newId)
            (maintRecordDict
              ⟨some newId, some vid, ty, de, da, m, c, sp,
               optionalStrField d "notes", optionalStrField d "next_due_date",
               none, some now, some now⟩), ?_, rfl, ?_⟩
    · simp [create_maintenance_record, hveh, hm, hc, hty, hde, hda, hsp, hndm]
    · rw [Store.hgetall_hset_self]
      exact Hash.find_merge_eq_of_find _ _ _ _ (by simp [maintRecordDict, Hash.find])

/-- A store holding one vehicle, used by concrete witnesses. -/
def exVehStore : Store := [("vehicle:v", [("make", "M")])]

/-- Witness for C5 at concrete request bodies. -/
theorem c5_maintenance_numeric_validation_witness :
    create_maintenance_record true "m1" "T1" "v"
        [("mileage", PyVal.vstr "abc")] exVehStore
      = (.error ⟨422, "Invalid mileage value"⟩, exVehStore)
    ∧ create_maintenance_record true "m1" "T1" "v"
        [("mileage", PyVal.vint 5), ("cost", PyVal.vstr "abc")] exVehStore
      = (.error ⟨422, "Invalid cost value"⟩, exVehStore)
    ∧ ∃ rec st, create_maintenance_record true "m1" "T1" "v"
        [("mileage", PyVal.vint 5), ("cost", PyVal.vstr "10.5"),
         ("next_due_mileage", PyVal.vstr "abc")] exVehStore = (.ok rec, st)
      ∧ rec.next_due_mileage = none
      ∧ Hash.find (Store.hgetall st "maintenance:v:m1") "next_due_mileage"
          = some "" := by
  refine ⟨?_, ?_, ?_⟩
  · exact (c5_maintenance_numeric_validation "v" "m1" "T1"
      [("mileage", PyVal.vstr "abc")] exVehStore rfl).1 (PyVal.vstr "abc") rfl rfl
  · exact (c5_maintenance_numeric_validation "v" "m1" "T1"
      [("mileage", PyVal.vint 5), ("cost", PyVal.vstr "abc")] exVehStore rfl).2.1
      5 (PyVal.vstr "abc") rfl rfl rfl
  · exact (c5_maintenance_numeric_validation "v" "m1" "T1"
      [("mileage", PyVal.vint 5), ("cost", PyVal.vstr "10.5"),
       ("next_due_mileage", PyVal.vstr "abc")] exVehStore rfl).2.2
      5 ⟨"10.5"⟩ "" "" "" "" (PyVal.vstr "abc") rfl rfl rfl rfl rfl rfl rfl rfl rfl

/-- A decodable stored maintenance hash with the given date, used by the
concrete sorting example. -/
def exMaintHash (dt : String) : Hash :=
  [("id", "x"), ("vehicle_id", "v"), ("type", "t"), ("description", "d"),
   ("date", dt), ("mileage", "5"), ("cost", "10.5"), ("service_provider", "sp"),
   ("notes", ""), ("next_due_date", ""), ("created_at", "T"), ("updated_at", "T")]

/-- Three maintenance records with the dates of the specification's
sorting example, stored in their creation order. -/
def exSortStore : Store :=
  [("maintenance:v:a", exMaintHash "2024-01-01"),
   ("maintenance:v:b", exMaintHash "2023-06-15"),
   ("maintenance:v:c", exMaintHash "2024-12-31")]

/-- C6: the three child listings are sorted descending by their date
field under Python's plain string comparison — maintenance and insurance
by `date` / `start_date`, registration by `issue_date`; each listing is
a permutation of the decoded stored records, and on the concrete example
store the dates come back exactly in the order of the specification. -/
theorem c6_listing_sorted_desc (avail : Bool) (vid : String) (s : Store) :
    (get_maintenance_records avail vid s).Pairwise
        (fun a b => strLtB a.date b.date = false)
    ∧ (get_insurance_records avail vid s).Pairwise
        (fun a b => strLtB a.start_date b.start_date = false)
    ∧ (get_registration_records avail vid s).Pairwise
        (fun a b => strLtB a.issue_date b.issue_date = false)
    ∧ List.Perm (get_maintenance_records true vid s)
        ((decodeAll decodeMaint s
          (Store.keysMatching s ("maintenance:" ++ vid ++ ":"))).getD [])
    ∧ List.Perm (get_insurance_records true vid s)
        ((decodeAll decodeInsurance s
          (Store.keysMatching s ("insurance:" ++ vid ++ ":"))).getD [])
    ∧ List.Perm (get_registration_records true vid s)
        ((decodeAll decodeRegistration s
          (Store.keysMatching s ("registration:" ++ vid ++ ":"))).getD [])
    ∧ (get_maintenance_records true "v" exSortStore).map (fun m => m.date)
        = ["2024-12-31", "2024-01-01", "2023-06-15"] := by
  refine ⟨?_, ?_, ?_, ?_, ?_, ?_, by decide⟩
  · cases avail
    · simp [get_maintenance_records]
    · cases hdec : decodeAll decodeMaint s
          (Store.keysMatching s ("maintenance:" ++ vid ++ ":"))
      · simp [get_maintenance_records, hdec]
      · simp only [get_maintenance_records, hdec, Bool.not_true, if_false]
        exact sortDesc_pairwise _ _
  · cases avail
    · simp [get_insurance_records]
    · cases hdec : decodeAll decodeInsurance s
          (Store.keysMatching s ("insurance:" ++ vid ++ ":"))
      · simp [get_insurance_records, hdec]
      · simp only [get_insurance_records, hdec, Bool.not_true, if_false]
        exact sortDesc_pairwise _ _
  · cases avail
    · simp [get_registration_records]
    · cases hdec : decodeAll decodeRegistration s
          (Store.keysMatching s ("registration:" ++ vid ++ ":"))
      · simp [get_registration_records, hdec]
      · simp only [get_registration_records, hdec, Bool.not_true, if_false]
        exact sortDesc_pairwise _ _
  · cases hdec : decodeAll decodeMaint s
        (Store.keysMatching s ("maintenance:" ++ vid ++ ":"))
    · simp [get_maintenance_records, hdec]
    · simp only [get_maintenance_records, hdec, Bool.not_true, if_false,
        Option.getD_some]
      exact sortDesc_perm _ _
  · cases hdec : decodeAll decodeInsurance s
        (Store.keysMatching s ("insurance:" ++ vid ++ ":"))
    · simp [get_insurance_records, hdec]
    · simp only [get_insurance_records, hdec, Bool.not_true, if_false,
        Option.getD_some]
      exact sortDesc_perm _ _
  · cases hdec : decodeAll decodeRegistration s
        (Store.keysMatching s ("registration:" ++ vid ++ ":"))
    · simp [get_registration_records, hdec]
    · simp only [get_registration_records, hdec, Bool.not_true, if_false,
        Option.getD_some]
      exact sortDesc_perm _ _

/-- The ownership invariant of the maintenance key space: every stored
key under `maintenance:` carries a `vehicle_id` field, and the key
begins with `maintenance:{vehicle_id}:` — the denormalized field always
matches the owner encoded in the key. -/
def maintOwnerInv (s : Store) : Bool :=
  s.all (fun p =>
    !(keyStarts "maintenance:" p.fst)
    || (match Hash.find p.snd "vehicle_id" with
        | some v => keyStarts ("maintenance:" ++ v ++ ":") p.fst
        | none => false))

theorem maintOwnerInv_hset (s : Store) (k : String) (m : Hash) (vidf : String)
    (hinv : maintOwnerInv s = true)
    (hfield : Hash.find m "vehicle_id" = some vidf)
    (hpre : keyStarts ("maintenance:" ++ vidf ++ ":") k = true) :
    maintOwnerInv (Store.hset s k m) = true := by
  induction s with
  | nil =>
      simp only [Store.hset, maintOwnerInv, List.all_cons, List.all_nil, Bool.and_true]
      rw [hfield]
      simp [hpre]
  | cons p rest ih =>
      obtain ⟨k1, h1⟩ := p
      simp only [maintOwnerInv, List.all_cons, Bool.and_eq_true] at hinv
      by_cases hk : k1 = k
      · subst hk
        simp only [Store.hset, maintOwnerInv]
        rw [if_pos trivial]
        simp only [List.all_cons, Bool.and_eq_true]
        constructor
        · rw [Hash.find_merge_eq_of_find _ _ _ _ hfield]
          simp [hpre]
        · exact hinv.2
      · simp only [Store.hset, if_neg hk, maintOwnerInv, List.all_cons,
          Bool.and_eq_true]
        exact ⟨hinv.1, ih hinv.2⟩

theorem findMaintKey_starts (s : Store) (mid key : String)
    (h : findMaintKey s mid = some key) :
    key ∈ Store.keys s ∧ keyStarts "maintenance:" key = true := by
  have hmem := List.mem_of_find?_eq_some h
  simp only [Store.keysMatching, List.mem_filter] at hmem
  exact hmem

/-- C7: the maintenance write paths (create and update) preserve the
invariant that a stored maintenance record's `vehicle_id` field matches
the vehicle id encoded in its storage key, whatever the request body
contains — no write can make them diverge. -/
theorem c7_vehicle_id_owner_invariant (avail : Bool) (newId now mid vid : String)
    (dc du : RawData) (s : Store) (hinv : maintOwnerInv s = true) :
    maintOwnerInv (create_maintenance_record avail newId now vid dc s).2 = true
    ∧ maintOwnerInv (update_maintenance_record avail now mid du s).2 = true := by
  constructor
  · unfold create_maintenance_record
    repeat' split
    all_goals first
      | exact hinv
      | (refine maintOwnerInv_hset s _ _ vid hinv ?_
            (keyStarts_append ("maintenance:" ++ vid ++ ":") newId)
         simp [maintRecordDict, Hash.find])
  · unfold update_maintenance_record
    split
    · exact hinv
    · split
      · exact hinv
      · next key hkey =>
        rcases findMaintKey_starts s mid key hkey with ⟨hks, hkpre⟩
        rcases Store.lookup_isSome_of_mem_keys s key hks with ⟨hsh, hlk⟩
        have hhg : Store.hgetall s key = hsh := by
          simp [Store.hgetall, hlk]
        have hpred := (List.all_eq_true.mp hinv) (key, hsh) (Store.lookup_mem s key hsh hlk)
        rw [hkpre] at hpred
        simp only [Bool.not_true, Bool.false_or] at hpred
        rcases hv : Hash.find hsh "vehicle_id" with _ | v0
        · rw [hv] at hpred
          simp at hpred
        · rw [hv] at hpred
          simp only at hpred
          simp only [hhg]
          repeat' split
          all_goals first
            | exact hinv
            | (refine maintOwnerInv_hset s key _ v0 hinv ?_ hpred
               simp [maintRecordDict, Hash.find, hv])

/-- A store with a single maintenance record, used by concrete
witnesses. -/
def exMaintStore : Store := [("maintenance:v:m1", exMaintHash "2024-01-01")]

/-- Witness for C7: a concrete create and a concrete update both
preserve the ownership invariant. -/
theorem c7_vehicle_id_owner_invariant_witness :
    maintOwnerInv (create_maintenance_record true "m1" "T1" "v"
      [("mileage", PyVal.vint 5), ("cost", PyVal.vint 2)] exVehStore).2 = true
    ∧ maintOwnerInv (update_maintenance_record true "T2" "m1" [] exMaintStore).2
        = true :=
  ⟨(c7_vehicle_id_owner_invariant true "m1" "T1" "m1" "v"
      [("mileage", PyVal.vint 5), ("cost", PyVal.vint 2)] [] exVehStore (by decide)).1,
   (c7_vehicle_id_owner_invariant true "x" "T2" "m1" "v"
      [] [] exMaintStore (by decide)).2⟩

/-- A vehicle hash written without a `created_at` field (not produced by
this service's own create path, but a legal store state). -/
def exBadVehStore : Store :=
  [("vehicle:v1",
    [("make", "Toyota"), ("model", "X"), ("year", "2020"), ("vin", "V"),
     ("license_plate", "L"), ("color", "C"), ("mileage", "5")])]

/-- A well-formed vehicle body for concrete inputs. -/
def exVehIn : VehicleIn := ⟨"Toyota", "X", 2020, "V", "L", "C", 5⟩

/-- C8 counterexample: a vehicle write whose mapping carries a `None`
field (`created_at`, read back from a hash that lacks it) does not
succeed with the key omitted from the stored hash — it fails with a 500
error and writes nothing at all. -/
theorem c8_counterexample_vehicle_none_not_omitted :
    update_vehicle true "T2" "v1" exVehIn exBadVehStore
      = (.error ⟨500, "internal error"⟩, exBadVehStore) := rfl

/-- C8 as amended: child-record writes store `None` fields as the empty
string under their key; vehicle writes have no key-omission convention —
the encoded mapping keeps every field (all ten keys are present in every
hash written by create), and a `None` value in a vehicle mapping makes
the write fail with a 500 error, leaving the store unchanged. -/
theorem c8_absent_field_conventions (m : MaintenanceRec) (ins : Insurance)
    (reg : Registration) (v v2 : VehicleIn) (i now now2 vid : String) (s : Store) :
    (m.notes = none → Hash.find (maintRecordDict m) "notes" = some "")
    ∧ (m.next_due_date = none → Hash.find (maintRecordDict m) "next_due_date" = some "")
    ∧ (m.next_due_mileage = none →
        Hash.find (maintRecordDict m) "next_due_mileage" = some "")
    ∧ (ins.notes = none → Hash.find (insuranceDict ins) "notes" = some "")
    ∧ (reg.notes = none → Hash.find (registrationDict reg) "notes" = some "")
    ∧ ((create_vehicle true i now v s).2
        = Store.hset s ("vehicle:" ++ i) (vehicleHashOf i now now v))
    ∧ (∀ f ∈ ["id", "make", "model", "year", "vin", "license_plate", "color",
              "mileage", "created_at", "updated_at"],
        (Hash.find (vehicleHashOf i now now v) f).isSome = true)
    ∧ (∀ vr : VehicleRec, vr.created_at = none →
        hsetEncode (vehicleHsetMapping vr) = none)
    ∧ ((Store.hgetall s ("vehicle:" ++ vid)).isEmpty = false →
        Hash.find (Store.hgetall s ("vehicle:" ++ vid)) "created_at" = none →
        update_vehicle true now2 vid v2 s = (.error ⟨500, "internal error"⟩, s)) := by
  refine ⟨?_, ?_, ?_, ?_, ?_, ?_, ?_, ?_, ?_⟩
  · intro h; simp [maintRecordDict, Hash.find, h]
  · intro h; simp [maintRecordDict, Hash.find, h]
  · intro h; simp [maintRecordDict, Hash.find, h]
  · intro h; simp [insuranceDict, Hash.find, h]
  · intro h; simp [registrationDict, Hash.find, h]
  · rw [create_vehicle_eq]
  · intro f hf
    fin_cases hf <;> simp [vehicleHashOf, Hash.find]
  · intro vr h
    obtain ⟨vid0, mk, md, yr, vn, lp, co, mi, cr, up⟩ := vr
    simp only at h
    subst h
    cases vid0 <;> simp [vehicleHsetMapping, hsetEncode]
  · intro hne hcr
    simp only [update_vehicle, Bool.not_true, if_false, Bool.false_eq_true]
    rw [if_neg (by rw [hne]; exact Bool.false_ne_true), hcr]
    simp [vehicleHsetMapping, hsetEncode]

/-- A maintenance record with all optional fields absent. -/
def exMaintRecNoOpt : MaintenanceRec :=
  ⟨some "m1", some "v", "t", "d", "2024-01-01", 5, ⟨"10.5"⟩, "sp",
   none, none, none, some "T", some "T"⟩

/-- A vehicle record whose `created_at` is `None`. -/
def exBadVehRec : VehicleRec :=
  ⟨some "v1", "Toyota", "X", 2020, "V", "L", "C", 5, none, some "T"⟩

/-- Witness for the amended C8 at concrete records and stores. -/
theorem c8_absent_field_conventions_witness :
    Hash.find (maintRecordDict exMaintRecNoOpt) "notes" = some ""
    ∧ Hash.find (maintRecordDict exMaintRecNoOpt) "next_due_date" = some ""
    ∧ Hash.find (maintRecordDict exMaintRecNoOpt) "next_due_mileage" = some ""
    ∧ Hash.find (insuranceDict exIns) "notes" = some ""
    ∧ Hash.find (registrationDict exReg) "notes" = some ""
    ∧ hsetEncode (vehicleHsetMapping exBadVehRec) = none
    ∧ update_vehicle true "T2" "v1" exVehIn exBadVehStore
        = (.error ⟨500, "internal error"⟩, exBadVehStore) := by
  have h := c8_absent_field_conventions exMaintRecNoOpt exIns exReg exVehIn exVehIn
    "i" "T" "T2" "v1" exBadVehStore
  exact ⟨h.1 rfl, h.2.1 rfl, h.2.2.1 rfl, h.2.2.2.1 rfl, h.2.2.2.2.1 rfl,
         h.2.2.2.2.2.2.2.1 exBadVehRec rfl, h.2.2.2.2.2.2.2.2 rfl rfl⟩

theorem RawData.get_cons (k' k : String) (v : PyVal) (rest : RawData) :
    RawData.get ((k', v) :: rest) k = if k' = k then some v else RawData.get rest k := rfl

theorem create_maintenance_ok_shape (avail : Bool) (newId now vid : String)
    (data : RawData) (s : Store) (rec : MaintenanceRec) (st : Store)
    (h : create_maintenance_record avail newId now vid data s = (.ok rec, st)) :
    rec.notes = optionalStrField data "notes"
    ∧ rec.next_due_mileage = optionalIntField data "next_due_mileage"
    ∧ st = Store.hset s ("maintenance:" ++ vid ++ ":" ++ newId) (maintRecordDict rec) := by
  unfold create_maintenance_record at h
  repeat' split at h
  all_goals injection h with h1 h2
  all_goals
    first
      | exact Except.noConfusion h1
      | (injection h1 with h3
         subst h3
         subst h2
         exact ⟨rfl, rfl, rfl⟩)

/-- C9: two maintenance creates that agree on everything except that one
omits `notes` while the other sends it falsy (empty string or null)
produce identical results and identical stores; on success the record's
notes are absent and the stored hash holds `notes` as the empty
string. -/
theorem c9_notes_omitted_vs_empty (d1 d2 : RawData) (vid newId now : String)
    (s : Store)
    (h1 : RawData.get d1 "notes" = none
          ∨ ∃ w, RawData.get d1 "notes" = some w ∧ pyTruthy w = false)
    (h2 : RawData.get d2 "notes" = none
          ∨ ∃ w, RawData.get d2 "notes" = some w ∧ pyTruthy w = false)
    (hk : ∀ k, k ≠ "notes" → RawData.get d1 k = RawData.get d2 k) :
    create_maintenance_record true newId now vid d1 s
      = create_maintenance_record true newId now vid d2 s
    ∧ (∀ rec st, create_maintenance_record true newId now vid d1 s = (.ok rec, st) →
        rec.notes = none
        ∧ Hash.find (Store.hgetall st ("maintenance:" ++ vid ++ ":" ++ newId)) "notes"
            = some "") := by
  have hn1 : optionalStrField d1 "notes" = none := by
    rcases h1 with h | ⟨w, hw, hfalse⟩
    · simp [optionalStrField, h]
    · simp [optionalStrField, hw, hfalse]
  have hn2 : optionalStrField d2 "notes" = none := by
    rcases h2 with h | ⟨w, hw, hfalse⟩
    · simp [optionalStrField, h]
    · simp [optionalStrField, hw, hfalse]
  have heq : create_maintenance_record true newId now vid d1 s
      = create_maintenance_record true newId now vid d2 s := by
    have hnd : optionalStrField d1 "next_due_date"
        = optionalStrField d2 "next_due_date" := by
      simp [optionalStrField, hk "next_due_date" (by decide)]
    have hni : optionalIntField d1 "next_due_mileage"
        = optionalIntField d2 "next_due_mileage" := by
      simp [optionalIntField, hk "next_due_mileage" (by decide)]
    simp only [create_maintenance_record,
      hk "mileage" (by decide), hk "cost" (by decide), hk "type" (by decide),
      hk "description" (by decide), hk "date" (by decide),
      hk "service_provider" (by decide), hnd, hni, hn1, hn2]
  refine ⟨heq, ?_⟩
  intro rec st hok
  rcases create_maintenance_ok_shape true newId now vid d1 s rec st hok
    with ⟨hnotes, -, hst⟩
  have hrn : rec.notes = none := by rw [hnotes, hn1]
  refine ⟨hrn, ?_⟩
  rw [hst, Store.hgetall_hset_self]
  refine Hash.find_merge_eq_of_find _ _ _ _ ?_
  simp [maintRecordDict, Hash.find, hrn]

/-- Witness for C9: one body omitting `notes`, the other sending
`notes: ""`, at a concrete store. -/
theorem c9_notes_omitted_vs_empty_witness :
    create_maintenance_record true "m1" "T1" "v"
        [("type", PyVal.vstr "t"), ("mileage", PyVal.vint 5), ("cost", PyVal.vint 2)]
        exVehStore
      = create_maintenance_record true "m1" "T1" "v"
        [("notes", PyVal.vstr ""), ("type", PyVal.vstr "t"),
         ("mileage", PyVal.vint 5), ("cost", PyVal.vint 2)] exVehStore
    ∧ Hash.find (Store.hgetall
        (create_maintenance_record true "m1" "T1" "v"
          [("type", PyVal.vstr "t"), ("mileage", PyVal.vint 5), ("cost", PyVal.vint 2)]
          exVehStore).2 "maintenance:v:m1") "notes" = some "" := by
  have h := c9_notes_omitted_vs_empty
    [("type", PyVal.vstr "t"), ("mileage", PyVal.vint 5), ("cost", PyVal.vint 2)]
    [("notes", PyVal.vstr ""), ("type", PyVal.vstr "t"),
     ("mileage", PyVal.vint 5), ("cost", PyVal.vint 2)]
    "v" "m1" "T1" exVehStore
    (Or.inl rfl)
    (Or.inr ⟨PyVal.vstr "", rfl, rfl⟩)
    (by
      intro k hkne
      conv_rhs => rw [RawData.get_cons]
      rw [if_neg (fun e => hkne e.symm)])
  refine ⟨h.1, ?_⟩
  have h2 := h.2
    ⟨some "m1", some "v", "t", "", "", 5, ⟨"2.0"⟩, "",
     none, none, none, some "T1", some "T1"⟩
    (Store.hset exVehStore ("maintenance:" ++ "v" ++ ":" ++ "m1")
      (maintRecordDict
        ⟨some "m1", some "v", "t", "", "", 5, ⟨"2.0"⟩, "",
         none, none, none, some "T1", some "T1"⟩)) rfl
  exact h2.2

/-- C10: a maintenance update whose body omits (or sends falsy values
for) `notes`, `next_due_date` and `next_due_mileage` resets those three
fields to absent, discarding the stored values, while omitted `type`,
`description`, `date`, `service_provider`, `mileage` and `cost` fall
back to the previously stored values; id and `created_at` are preserved
and `updated_at` is refreshed. -/
theorem c10_update_optional_reset_required_fallback (mid now : String)
    (data : RawData) (s : Store) (key : String) (M : Int) (C : PyFloat)
    (hkey : findMaintKey s mid = some key)
    (hne : (Store.hgetall s key).isEmpty = false)
    (hmt : RawData.get data "type" = none)
    (hmd : RawData.get data "description" = none)
    (hmda : RawData.get data "date" = none)
    (hmsp : RawData.get data "service_provider" = none)
    (hmm : RawData.get data "mileage" = none)
    (hmc : RawData.get data "cost" = none)
    (hnn : RawData.get data "notes" = none
           ∨ ∃ w, RawData.get data "notes" = some w ∧ pyTruthy w = false)
    (hnd : RawData.get data "next_due_date" = none
           ∨ ∃ w, RawData.get data "next_due_date" = some w ∧ pyTruthy w = false)
    (hnm : RawData.get data "next_due_mileage" = none
           ∨ ∃ w, RawData.get data "next_due_mileage" = some w ∧ pyTruthy w = false)
    (hm : (match Hash.find (Store.hgetall s key) "mileage" with
           | some str => parseIntStr str
           | none => some (0 : Int)) = some M)
    (hc : (match Hash.find (Store.hgetall s key) "cost" with
           | some str => parseFloatStr str
           | none => some (⟨"0.0"⟩ : PyFloat)) = some C) :
    update_maintenance_record true now mid data s
      = (.ok ⟨some mid, some ((Hash.find (Store.hgetall s key) "vehicle_id").getD ""),
              (Hash.find (Store.hgetall s key) "type").getD "",
              (Hash.find (Store.hgetall s key) "description").getD "",
              (Hash.find (Store.hgetall s key) "date").getD "",
              M, C,
              (Hash.find (Store.hgetall s key) "service_provider").getD "",
              none, none, none,
              Hash.find (Store.hgetall s key) "created_at", some now⟩,
         Store.hset s key (maintRecordDict
           ⟨some mid, some ((Hash.find (Store.hgetall s key) "vehicle_id").getD ""),
            (Hash.find (Store.hgetall s key) "type").getD "",
            (Hash.find (Store.hgetall s key) "description").getD "",
            (Hash.find (Store.hgetall s key) "date").getD "",
            M, C,
            (Hash.find (Store.hgetall s key) "service_provider").getD "",
            none, none, none,
            Hash.find (Store.hgetall s key) "created_at", some now⟩)) := by
  have hn1 : optionalStrField data "notes" = none := by
    rcases hnn with h | ⟨w, hw, hfalse⟩
    · simp [optionalStrField, h]
    · simp [optionalStrField, hw, hfalse]
  have hn2 : optionalStrField data "next_due_date" = none := by
    rcases hnd with h | ⟨w, hw, hfalse⟩
    · simp [optionalStrField, h]
    · simp [optionalStrField, hw, hfalse]
  have hn3 : optionalIntField data "next_due_mileage" = none := by
    rcases hnm with h | ⟨w, hw, hfalse⟩
    · simp [optionalIntField, h]
    · simp [optionalIntField, hw, hfalse]
  have hm' : parsePyInt ((RawData.get data "mileage").getD
      (match Hash.find (Store.hgetall s key) "mileage" with
       | some str => PyVal.vstr str
       | none => PyVal.vint 0)) = some M := by
    rw [hmm, Option.getD_none]
    rcases hfm : Hash.find (Store.hgetall s key) "mileage" with _ | str
    · rw [hfm] at hm
      simpa [parsePyInt] using hm
    · rw [hfm] at hm
      simpa [parsePyInt] using hm
  have hc' : (match RawData.get data "cost" with
              | some v => parsePyFloat v
              | none =>
                  match Hash.find (Store.hgetall s key) "cost" with
                  | some str => parseFloatStr str
                  | none => some (⟨"0.0"⟩ : PyFloat)) = some C := by
    rw [hmc]
    exact hc
  simp only [update_maintenance_record, hkey, Bool.not_true, if_false,
    Bool.false_eq_true]
  rw [if_neg (by rw [hne]; exact Bool.false_ne_true)]
  rw [hm', hc', hmt, hmd, hmda, hmsp]
  simp only [Option.getD_none, hn1, hn2, hn3]
  rfl

/-- Witness for C10: an empty update body on a concrete stored record
resets the optionals and keeps the rest. -/
theorem c10_update_optional_reset_required_fallback_witness :
    update_maintenance_record true "T9" "m1" [] exMaintStore
      = (.ok ⟨some "m1", some "v", "t", "d", "2024-01-01", 5, ⟨"10.5"⟩, "sp",
              none, none, none, some "T", some "T9"⟩,
         Store.hset exMaintStore "maintenance:v:m1" (maintRecordDict
           ⟨some "m1", some "v", "t", "d", "2024-01-01", 5, ⟨"10.5"⟩, "sp",
            none, none, none, some "T", some "T9"⟩)) := by
  exact c10_update_optional_reset_required_fallback "m1" "T9" [] exMaintStore
    "maintenance:v:m1" 5 ⟨"10.5"⟩ rfl rfl rfl rfl rfl rfl rfl rfl
    (Or.inl rfl) (Or.inl rfl) (Or.inl rfl) rfl rfl
